import Mathlib

/-!
Verification of the py2deb conversion pipeline.

The development shallowly embeds the two converter modules of the
repository (the module-level functions of py2deb/converter.py and the
legacy class py2deb/util/converter.py) as executable Lean functions and
proves the specified properties about them.

Conventions used throughout:

* Python dictionaries are embedded as association lists; `List.lookup`
  plays the role of dictionary access (first binding wins, which agrees
  with the unique-key discipline of the Python dictionaries involved).
* Unbounded Python recursion is embedded with an explicit stack budget
  (a fuel argument): `none` means the budget was exhausted, i.e. the
  Python call would still be recursing at that depth.  A Python call
  terminates iff some finite budget returns `some`.
* Exceptions are embedded as `Except String` with the message text of
  the corresponding `raise` statement.
-/

/-! ## Dependency resolution (py2deb/converter.py)

A candidate package is represented by its name together with the list of
names of its declared Python dependencies (`Package.py_dependencies`).
The candidate dictionary built by `get_required_packages` from the
fetched source distributions is passed in directly. -/

/-- The candidate package dictionary: package name mapped to the names of
its declared Python dependencies. -/
abbrev Packages := List (String × List String)

/-- Embeds the loop body of `get_related_packages`: runs the recursion
(given as `rec`, the closure computation one stack frame deeper) over each
declared dependency and concatenates the results, mirroring
`related.extend(get_related_packages(dependency, packages))`. -/
def relatedOfDeps (rec : String → Packages → Option (List String)) :
    List String → Packages → Option (List String)
  | [], _ => some []
  | d :: ds, packages =>
    match rec d packages with
    | none => none
    | some l =>
      match relatedOfDeps rec ds packages with
      | none => none
      | some r => some (l ++ r)

/-- Embeds `get_related_packages(pkg_name, packages)` from
py2deb/converter.py.  The Python function recurses on every declared
dependency of a candidate without tracking visited names; the `fuel`
argument is the remaining recursion depth, and `none` models a call that
is still recursing when the stack budget runs out. -/
def get_related_packages (fuel : Nat) : String → Packages → Option (List String) :=
  match fuel with
  | 0 => fun _ _ => none
  | f + 1 => fun pkg_name packages =>
    match packages.lookup pkg_name with
    | none => some []
    | some deps =>
      match relatedOfDeps (get_related_packages f) deps packages with
      | none => none
      | some rest => some (pkg_name :: rest)

/-- Embeds the `to_ignore` accumulation loop of `get_required_packages`:
for every candidate whose name is a key of `replacements`, extend the
ignore list with that candidate's related-package closure.  `iter` is the
iteration list (the full candidate dictionary), `packages` the dictionary
the closures are computed against. -/
def compute_to_ignore (fuel : Nat) (packages : Packages)
    (replacements : List (String × String)) : Packages → Option (List String)
  | [] => some []
  | (pkg_name, _) :: rest =>
    if (replacements.lookup pkg_name).isSome then
      match get_related_packages fuel pkg_name packages with
      | none => none
      | some l =>
        match compute_to_ignore fuel packages replacements rest with
        | none => none
        | some r => some (l ++ r)
    else compute_to_ignore fuel packages replacements rest

/-- Embeds `get_required_packages` from py2deb/converter.py, with the
candidate dictionary (built there from the unpacked source distributions)
passed in directly: computes the ignore list and keeps every candidate
whose name is not in it. -/
def get_required_packages (fuel : Nat) (packages : Packages)
    (replacements : List (String × String)) : Option Packages :=
  match compute_to_ignore fuel packages replacements packages with
  | none => none
  | some to_ignore => some (packages.filter (fun p => !(to_ignore.contains p.1)))

/-- A cyclic candidate dictionary: package a depends on b and b depends
on a. -/
def cyclePackages : Packages := [("a", ["b"]), ("b", ["a"])]

example : get_related_packages 5 "a" [("a", ["b"]), ("b", [])] = some ["a", "b"] := by decide
example : get_required_packages 5 [("alpha", ["beta"]), ("beta", [])] [("beta", "libbeta")] =
    some [("alpha", ["beta"])] := by decide
example : get_related_packages 50 "a" cyclePackages = none := by decide

/-! ## C2: the closure computation on a cyclic candidate dictionary -/

theorem lookup_cycle_a : cyclePackages.lookup "a" = some ["b"] := by decide

theorem lookup_cycle_b : cyclePackages.lookup "b" = some ["a"] := by decide

theorem get_related_cycle_aux :
    ∀ fuel, get_related_packages fuel "a" cyclePackages = none ∧
      get_related_packages fuel "b" cyclePackages = none := by
  intro fuel
  induction fuel with
  | zero => exact ⟨rfl, rfl⟩
  | succ f ih =>
    refine ⟨?_, ?_⟩
    · have h1 : relatedOfDeps (get_related_packages f) ["b"] cyclePackages = none := by
        simp [relatedOfDeps, ih.2]
      have h2 : get_related_packages (f + 1) "a" cyclePackages =
          (match relatedOfDeps (get_related_packages f) ["b"] cyclePackages with
           | none => none
           | some rest => some ("a" :: rest)) := by
        simp only [get_related_packages, lookup_cycle_a]
      rw [h2, h1]
    · have h1 : relatedOfDeps (get_related_packages f) ["a"] cyclePackages = none := by
        simp [relatedOfDeps, ih.1]
      have h2 : get_related_packages (f + 1) "b" cyclePackages =
          (match relatedOfDeps (get_related_packages f) ["a"] cyclePackages with
           | none => none
           | some rest => some ("b" :: rest)) := by
        simp only [get_related_packages, lookup_cycle_b]
      rw [h2, h1]

/-- C2: `get_related_packages` does not track visited names.  On the
cyclic candidate dictionary where a depends on b and b depends on a, the
closure computation exhausts every recursion budget: no stack depth
suffices for the call on a to return, i.e. the Python function recurses
without bound (raising RecursionError) instead of terminating on a
revisited name as the claim states. -/
theorem c2_get_related_packages_cycle_diverges :
    ∀ fuel, get_related_packages fuel "a" cyclePackages = none :=
  fun fuel => (get_related_cycle_aux fuel).1

/-! ## C1: characterization of the build set -/

theorem mem_compute_to_ignore {fuel : Nat} {packages : Packages}
    {repl : List (String × String)} :
    ∀ {iter : Packages} {ign : List String},
      compute_to_ignore fuel packages repl iter = some ign →
      ∀ n : String, (n ∈ ign ↔ ∃ p ∈ iter, (repl.lookup p.1).isSome ∧
        ∃ l, get_related_packages fuel p.1 packages = some l ∧ n ∈ l) := by
  intro iter
  induction iter with
  | nil =>
    intro ign h n
    simp only [compute_to_ignore, Option.some.injEq] at h
    subst h
    simp
  | cons hd rest ih =>
    intro ign h n
    obtain ⟨name, deps⟩ := hd
    simp only [compute_to_ignore] at h
    by_cases hrep : (repl.lookup name).isSome
    · rw [if_pos hrep] at h
      cases hrel : get_related_packages fuel name packages with
      | none => rw [hrel] at h; exact absurd h (by simp)
      | some l =>
        rw [hrel] at h
        cases hrest : compute_to_ignore fuel packages repl rest with
        | none => rw [hrest] at h; exact absurd h (by simp)
        | some r =>
          rw [hrest] at h
          simp only [Option.some.injEq] at h
          subst h
          rw [List.mem_append, ih hrest n]
          constructor
          · rintro (hnl | ⟨p, hp, hrest2⟩)
            · exact ⟨(name, deps), List.mem_cons_self _ _, hrep, l, hrel, hnl⟩
            · exact ⟨p, List.mem_cons_of_mem _ hp, hrest2⟩
          · rintro ⟨p, hp, hps, l2, hl2, hnl2⟩
            rcases List.mem_cons.mp hp with rfl | hp
            · have hl2a : get_related_packages fuel name packages = some l2 := hl2
              rw [hrel] at hl2a
              obtain rfl : l = l2 := by injection hl2a
              exact Or.inl hnl2
            · exact Or.inr ⟨p, hp, hps, l2, hl2, hnl2⟩
    · rw [if_neg hrep] at h
      rw [ih h n]
      constructor
      · rintro ⟨p, hp, hrest2⟩
        exact ⟨p, List.mem_cons_of_mem _ hp, hrest2⟩
      · rintro ⟨p, hp, hps, hl⟩
        rcases List.mem_cons.mp hp with rfl | hp
        · exact absurd hps hrep
        · exact ⟨p, hp, hps, hl⟩

theorem compute_to_ignore_forces {fuel : Nat} {packages : Packages}
    {repl : List (String × String)} :
    ∀ {iter : Packages} {ign : List String},
      compute_to_ignore fuel packages repl iter = some ign →
      ∀ p ∈ iter, (repl.lookup p.1).isSome →
        ∃ l, get_related_packages fuel p.1 packages = some l := by
  intro iter
  induction iter with
  | nil => intro ign _ p hp; exact absurd hp (List.not_mem_nil p)
  | cons hd rest ih =>
    intro ign h p hp hps
    obtain ⟨name, deps⟩ := hd
    simp only [compute_to_ignore] at h
    rcases List.mem_cons.mp hp with hp | hp
    · subst hp
      rw [if_pos hps] at h
      cases hrel : get_related_packages fuel name packages with
      | none => rw [hrel] at h; exact absurd h (by simp)
      | some l => exact ⟨l, rfl⟩
    · by_cases hrep : (repl.lookup name).isSome
      · rw [if_pos hrep] at h
        cases hrel : get_related_packages fuel name packages with
        | none => rw [hrel] at h; exact absurd h (by simp)
        | some l =>
          rw [hrel] at h
          cases hrest : compute_to_ignore fuel packages repl rest with
          | none => rw [hrest] at h; exact absurd h (by simp)
          | some r => exact ih hrest p hp hps
      · rw [if_neg hrep] at h
        exact ih h p hp hps

theorem lookup_isSome_of_mem {p : String × List String} :
    ∀ {packages : Packages}, p ∈ packages → (packages.lookup p.1).isSome := by
  intro packages
  induction packages with
  | nil => intro h; exact absurd h (List.not_mem_nil p)
  | cons hd rest ih =>
    intro h
    obtain ⟨k, v⟩ := hd
    simp only [List.lookup]
    by_cases hk : p.1 == k
    · simp [hk]
    · simp only [hk]
      rcases List.mem_cons.mp h with h | h
      · subst h; simp at hk
      · exact ih h

theorem self_mem_get_related {fuel : Nat} {name : String} {packages : Packages}
    {l : List String} (h : get_related_packages fuel name packages = some l)
    (hmem : (packages.lookup name).isSome) : name ∈ l := by
  cases fuel with
  | zero => exact absurd h (by simp [get_related_packages])
  | succ f =>
    simp only [get_related_packages] at h
    split at h
    · rename_i heq
      rw [heq] at hmem
      exact absurd hmem (by simp)
    · rename_i deps heq
      split at h
      · exact absurd h (by simp)
      · rename_i rest heq2
        simp only [Option.some.injEq] at h
        subst h
        exact List.mem_cons_self name rest

/-- C1: the dependency resolution returns exactly the candidates whose
names are not in `to_ignore`, where `to_ignore` is the union of the
related-package closures of the candidates listed in the replacement map;
in particular a replaced candidate is itself excluded, while any
candidate whose name escapes all those closures is kept. -/
theorem c1_build_set_characterization (fuel : Nat) (packages : Packages)
    (replacements : List (String × String)) (result : Packages)
    (h : get_required_packages fuel packages replacements = some result) :
    ∃ to_ignore,
      compute_to_ignore fuel packages replacements packages = some to_ignore ∧
      (∀ p, p ∈ result ↔ p ∈ packages ∧ p.1 ∉ to_ignore) ∧
      (∀ n, n ∈ to_ignore ↔ ∃ p ∈ packages, (replacements.lookup p.1).isSome ∧
          ∃ l, get_related_packages fuel p.1 packages = some l ∧ n ∈ l) ∧
      (∀ p ∈ packages, (replacements.lookup p.1).isSome → p ∉ result) := by
  simp only [get_required_packages] at h
  split at h
  · exact absurd h (by simp)
  · rename_i to_ignore hig
    simp only [Option.some.injEq] at h
    subst h
    have hmem : ∀ p, p ∈ packages.filter (fun p => !(to_ignore.contains p.1)) ↔
        p ∈ packages ∧ p.1 ∉ to_ignore := by
      intro p
      rw [List.mem_filter]
      simp
    refine ⟨to_ignore, hig, hmem, mem_compute_to_ignore hig, ?_⟩
    intro p hp hps hcontra
    have hign : p.1 ∈ to_ignore := by
      obtain ⟨l, hl⟩ := compute_to_ignore_forces hig p hp hps
      exact (mem_compute_to_ignore hig p.1).mpr
        ⟨p, hp, hps, l, hl, self_mem_get_related hl (lookup_isSome_of_mem hp)⟩
    exact ((hmem p).mp hcontra).2 hign

/-- C1 witness: with candidates alpha (depending on beta) and beta, and
beta listed in the replacement map, the build set is exactly alpha. -/
theorem c1_witness :
    get_required_packages 3 [("alpha", ["beta"]), ("beta", [])] [("beta", "libbeta")] =
      some [("alpha", ["beta"])] ∧
    ∃ to_ignore,
      compute_to_ignore 3 [("alpha", ["beta"]), ("beta", [])] [("beta", "libbeta")]
        [("alpha", ["beta"]), ("beta", [])] = some to_ignore ∧
      (∀ p, p ∈ [(("alpha" : String), ["beta"])] ↔
        p ∈ [(("alpha" : String), ["beta"]), ("beta", [])] ∧ p.1 ∉ to_ignore) ∧
      (∀ n, n ∈ to_ignore ↔ ∃ p ∈ [(("alpha" : String), ["beta"]), ("beta", [])],
          (([(("beta" : String), "libbeta")]).lookup p.1).isSome ∧
          ∃ l, get_related_packages 3 p.1 [("alpha", ["beta"]), ("beta", [])] = some l ∧
            n ∈ l) ∧
      (∀ p ∈ [(("alpha" : String), ["beta"]), ("beta", [])],
        (([(("beta" : String), "libbeta")]).lookup p.1).isSome →
          p ∉ [(("alpha" : String), ["beta"])]) :=
  ⟨by decide, c1_build_set_characterization 3 _ _ _ (by decide)⟩

/-! ## C3: bounded retries in the two fetch implementations

The external pip-accel calls are modelled by an `oracle`: `oracle i`
tells whether the unpack attempt made when the loop counter equals `i`
succeeds or raises `pip.exceptions.DistributionNotFound`.  The embedding
records the sequence of external calls (unpack attempts and explicit
download steps) and whether the function returned (`true`) or fell
through to its final `raise` (`false`). -/

/-- An external pip-accel call made by a fetch loop. -/
inductive FetchEvent where
  | unpack
  | download
deriving DecidableEq

/-- Embeds the `for i in xrange(max_retries)` loop of the module-level
`get_source_dists` (py2deb/converter.py): each iteration tries
`unpack_source_dists` and, on `DistributionNotFound`, runs
`download_source_dists`; the first argument is the number of iterations
left. -/
def unpackLoopFor (oracle : Nat → Bool) : Nat → Nat → List FetchEvent × Bool
  | 0, _ => ([], false)
  | n + 1, i =>
    if oracle i then ([FetchEvent.unpack], true)
    else
      let rest := unpackLoopFor oracle n (i + 1)
      (FetchEvent.unpack :: FetchEvent.download :: rest.1, rest.2)

/-- Embeds `get_source_dists(pip_arguments, max_retries=10)` from
py2deb/converter.py: the for loop starts at counter 0 and, if it
completes without returning, the for-else clause raises. -/
def get_source_dists_events (oracle : Nat → Bool) (max_retries : Nat) :
    List FetchEvent × Bool :=
  unpackLoopFor oracle max_retries 0

/-- Embeds the body of the `while i < max_retries` loop of
`Converter.get_source_dists` (py2deb/util/converter.py) as a structural
recursion on the number of remaining iterations `max_retries - i`. -/
def unpackLoopWhile (oracle : Nat → Bool) : Nat → Nat → List FetchEvent × Bool
  | 0, _ => ([], false)
  | n + 1, i =>
    if oracle i then ([FetchEvent.unpack], true)
    else
      let rest := unpackLoopWhile oracle n (i + 1)
      (FetchEvent.unpack :: FetchEvent.download :: rest.1, rest.2)

/-- Embeds `Converter.get_source_dists(pip_arguments, max_retries=10)`
from py2deb/util/converter.py: `i` starts at 1 and the loop runs while
`i < max_retries`, i.e. for `max_retries - 1` iterations, after which the
method raises. -/
def Converter_get_source_dists_events (oracle : Nat → Bool) (max_retries : Nat) :
    List FetchEvent × Bool :=
  unpackLoopWhile oracle (max_retries - 1) 1

/-- C3: when every fetch attempt raises the distribution-not-found
condition, the module-level `get_source_dists` makes exactly 10 unpack
attempts, each followed by an explicit download step, and then raises
(returns nothing) without an 11th call — but the legacy
`Converter.get_source_dists`, whose loop counter starts at 1 and runs
only while it is below 10, makes exactly 9 unpack attempts before
raising the error message that itself claims pip failed 10 times. -/
theorem c3_retry_counts :
    (get_source_dists_events (fun _ => false) 10).1.count FetchEvent.unpack = 10 ∧
    (get_source_dists_events (fun _ => false) 10).1.count FetchEvent.download = 10 ∧
    (get_source_dists_events (fun _ => false) 10).2 = false ∧
    (Converter_get_source_dists_events (fun _ => false) 10).1.count FetchEvent.unpack = 9 ∧
    (Converter_get_source_dists_events (fun _ => false) 10).1.count FetchEvent.download = 9 ∧
    (Converter_get_source_dists_events (fun _ => false) 10).2 = false := by
  refine ⟨?_, ?_, ?_, ?_, ?_, ?_⟩ <;> rfl

/-! ## C4: the persisted dependency store (py2deb/util/converter.py)

`Converter.find_dependency_file` names the store file by the SHA-1 hex
digest of the requirement file's bytes (`hashlib.sha1` over
`handle.read()`).  SHA-1 is implemented here over byte lists, operating
on 32-bit words embedded as `Nat` reduced modulo 2 to the 32.  The
dependency store directory is embedded as an association list from file
name to file content. -/

/-- Left-rotation of a 32-bit word. -/
def sha1rotl (n x : Nat) : Nat :=
  ((x <<< n) ||| (x >>> (32 - n))) % 4294967296

/-- Big-endian 32-bit words from a byte list (length a multiple of 4). -/
def bytesToWords : List Nat → List Nat
  | b0 :: b1 :: b2 :: b3 :: rest =>
    ((b0 <<< 24) ||| (b1 <<< 16) ||| (b2 <<< 8) ||| b3) :: bytesToWords rest
  | _ => []

/-- Extends the 16-word message schedule to 80 words; the schedule is
kept reversed so indices 2, 7, 13, 15 are words i-3, i-8, i-14, i-16. -/
def sha1ExtendLoop : Nat → List Nat → List Nat
  | 0, wrev => wrev
  | n + 1, wrev =>
    let word := sha1rotl 1 ((wrev.getD 2 0) ^^^ (wrev.getD 7 0) ^^^
      (wrev.getD 13 0) ^^^ (wrev.getD 15 0))
    sha1ExtendLoop n (word :: wrev)

/-- The SHA-1 round function for round i. -/
def sha1f (i b c d : Nat) : Nat :=
  if i < 20 then (b &&& c) ||| ((4294967295 ^^^ b) &&& d)
  else if i < 40 then b ^^^ c ^^^ d
  else if i < 60 then (b &&& c) ||| (b &&& d) ||| (c &&& d)
  else b ^^^ c ^^^ d

/-- The SHA-1 round constant for round i. -/
def sha1k (i : Nat) : Nat :=
  if i < 20 then 1518500249
  else if i < 40 then 1859775393
  else if i < 60 then 2400959708
  else 3395469782

/-- Runs the 80 SHA-1 rounds over the message schedule `w`. -/
def sha1Rounds (w : List Nat) :
    Nat → Nat → Nat × Nat × Nat × Nat × Nat → Nat × Nat × Nat × Nat × Nat
  | 0, _, st => st
  | n + 1, i, (a, b, c, d, e) =>
    let temp := (sha1rotl 5 a + sha1f i b c d + e + sha1k i + w.getD i 0) % 4294967296
    sha1Rounds w n (i + 1) (temp, a, sha1rotl 30 b, c, d)

/-- Processes one 64-byte chunk, updating the five hash words. -/
def sha1ProcessChunk (chunk : List Nat) (hs : Nat × Nat × Nat × Nat × Nat) :
    Nat × Nat × Nat × Nat × Nat :=
  let w := (sha1ExtendLoop 64 (bytesToWords chunk).reverse).reverse
  let (h0, h1, h2, h3, h4) := hs
  let (a, b, c, d, e) := sha1Rounds w 80 0 (h0, h1, h2, h3, h4)
  ((h0 + a) % 4294967296, (h1 + b) % 4294967296, (h2 + c) % 4294967296,
   (h3 + d) % 4294967296, (h4 + e) % 4294967296)

/-- Folds `sha1ProcessChunk` over the given number of 64-byte chunks. -/
def sha1ChunkLoop : Nat → List Nat → Nat × Nat × Nat × Nat × Nat → Nat × Nat × Nat × Nat × Nat
  | 0, _, hs => hs
  | n + 1, bytes, hs => sha1ChunkLoop n (bytes.drop 64) (sha1ProcessChunk (bytes.take 64) hs)

/-- The 8-byte big-endian encoding of the message bit length. -/
def beBytes8 (n : Nat) : List Nat :=
  [(n >>> 56) % 256, (n >>> 48) % 256, (n >>> 40) % 256, (n >>> 32) % 256,
   (n >>> 24) % 256, (n >>> 16) % 256, (n >>> 8) % 256, n % 256]

/-- SHA-1 padding: a 0x80 byte, zeros, then the 64-bit bit length,
bringing the length to a multiple of 64 bytes. -/
def sha1Pad (msg : List Nat) : List Nat :=
  msg ++ [128] ++ List.replicate ((64 - ((msg.length + 9) % 64)) % 64) 0 ++
    beBytes8 (msg.length * 8)

/-- Lowercase hexadecimal digit. -/
def hexDigit (n : Nat) : Char :=
  if n < 10 then Char.ofNat (48 + n) else Char.ofNat (87 + n)

/-- Big-endian lowercase hexadecimal rendering of a 32-bit word. -/
def toHex8 (x : Nat) : List Char :=
  (List.range 8).map (fun i => hexDigit ((x >>> (28 - 4 * i)) % 16))

/-- Embeds `hashlib.sha1(bytes).hexdigest()`: the lowercase SHA-1 hex
digest of a byte list. -/
def sha1hex (msg : List Nat) : String :=
  let padded := sha1Pad msg
  let (h0, h1, h2, h3, h4) := sha1ChunkLoop (padded.length / 64) padded
    (1732584193, 4023233417, 2562383102, 271733878, 3285377520)
  String.mk (toHex8 h0 ++ toHex8 h1 ++ toHex8 h2 ++ toHex8 h3 ++ toHex8 h4)

/-- The dependency store directory: file name mapped to file content,
newest write first (a later write to the same name shadows the older
one, like overwriting the file). -/
abbrev DepStore := List (String × String)

/-- Embeds `Converter.find_dependency_file`: the store file for a
requirement file whose bytes are `requirements` is named by the SHA-1
hex digest of those bytes, with a .txt extension. -/
def find_dependency_file (requirements : List Nat) : String :=
  sha1hex requirements ++ ".txt"

/-- Embeds the string `'%(Package)s (=%(Version)s)' % debfile.debcontrol()`
joined over the converted packages with `', '.join(deplist)`: `deplist`
lists the (name, version) pairs read back from the built artifacts. -/
def joinDeps (deplist : List (String × String)) : String :=
  String.intercalate ", " (deplist.map (fun nv => nv.1 ++ " (=" ++ nv.2 ++ ")"))

/-- Embeds `Converter.persist_dependencies`: writes the comma-joined
dependency list to the store file named for the requirement bytes. -/
def persist_dependencies (store : DepStore) (requirements : List Nat)
    (deplist : List (String × String)) : DepStore :=
  (find_dependency_file requirements, joinDeps deplist) :: store

/-- Embeds `Converter.recall_dependencies`: if the store file for the
requirement bytes exists its content is returned, otherwise the
cache-miss exception is raised. -/
def recall_dependencies (store : DepStore) (requirements : List Nat) :
    Except String String :=
  match store.lookup (find_dependency_file requirements) with
  | some contents => Except.ok contents
  | none => Except.error "Could not recall dependencies: This requirements file has not yet been converted with py2deb on this machine."

/-- C4: persisting the converted dependencies and recalling them with the
same requirement bytes returns exactly the persisted comma-joined
name (=version) string; the store file is named by the SHA-1 hex digest
of the requirement bytes; and recalling when no file was ever persisted
for that content raises the recoverable cache-miss error. -/
theorem c4_store_roundtrip (store : DepStore) (requirements : List Nat)
    (deplist : List (String × String)) :
    recall_dependencies (persist_dependencies store requirements deplist) requirements =
      Except.ok (joinDeps deplist) ∧
    persist_dependencies store requirements deplist =
      (sha1hex requirements ++ ".txt", joinDeps deplist) :: store ∧
    (store.lookup (find_dependency_file requirements) = none →
      recall_dependencies store requirements =
        Except.error "Could not recall dependencies: This requirements file has not yet been converted with py2deb on this machine.") := by
  refine ⟨?_, rfl, ?_⟩
  · simp [recall_dependencies, persist_dependencies, List.lookup]
  · intro h
    simp [recall_dependencies, h]

/-- C4 witness: a concrete persist/recall round trip on the byte content
of the single-character requirement file a, and a recall against the
empty store. -/
theorem c4_witness :
    recall_dependencies (persist_dependencies [] [97] [("py-foo", "1.0")]) [97] =
      Except.ok (joinDeps [("py-foo", "1.0")]) ∧
    persist_dependencies [] [97] [("py-foo", "1.0")] =
      [(sha1hex [97] ++ ".txt", joinDeps [("py-foo", "1.0")])] ∧
    ([] : DepStore).lookup (find_dependency_file [97]) = none ∧
    recall_dependencies [] [97] =
      Except.error "Could not recall dependencies: This requirements file has not yet been converted with py2deb on this machine." :=
  ⟨(c4_store_roundtrip [] [97] [("py-foo", "1.0")]).1,
   (c4_store_roundtrip [] [97] [("py-foo", "1.0")]).2.1,
   rfl,
   (c4_store_roundtrip [] [97] [("py-foo", "1.0")]).2.2 rfl⟩

/-! ## C5 and C7: artifact pattern, build short-circuit, artifact scan

File names are matched against the glob `'%s_*.deb' % package.debian_name`
(`Package.debian_file_pattern`, modelled from the spec as the
native-name pattern `<native-name>_*.deb`; the same pattern appears
literally in `build`).  `fnmatch`/`glob` matching of that pattern means:
the name is the native name, an underscore, anything, then .deb. -/

/-- A file name matches the native-name artifact pattern
`<debian_name>_*.deb` iff it decomposes as the native name, an
underscore, an arbitrary infix and the .deb extension. -/
def matchesDebPattern (debian_name filename : String) : Bool :=
  ((debian_name ++ "_").data.isPrefixOf filename.data) &&
    ((".deb").data.isSuffixOf filename.data) &&
    (debian_name.length + 5 ≤ filename.length)

/-- Embeds `find_build(package, repository)` from py2deb/converter.py:
`glob.glob` of the artifact pattern inside the repository directory,
i.e. the repository files matching the pattern. -/
def find_build (debian_name : String) (repoFiles : List String) : List String :=
  repoFiles.filter (fun f => matchesDebPattern debian_name f)

/-- One step of the per-package build pipeline run by `convert` when no
existing artifact short-circuits it. -/
inductive BuildStep where
  | debianize
  | patchControl
  | applyScript
  | sanityCheck
  | build
deriving DecidableEq

/-- The name and version declared by a built artifact itself
(`DebFile(path).debcontrol()`). -/
structure DebInfo where
  package : String
  version : String
deriving DecidableEq

/-- Embeds `'%(Package)s (=%(Version)s)' % debfile.debcontrol()`. -/
def formatDep (d : DebInfo) : String :=
  d.package ++ " (=" ++ d.version ++ ")"

/-- Embeds the per-package body of the `convert` loop
(py2deb/converter.py): if `find_build` returns matches (a non-empty list
is truthy in Python), the build pipeline is skipped entirely and the
result string is read from the last match `result[-1]`; otherwise the
full pipeline runs and the result is read from the freshly built
artifact.  `debmeta` gives the control data `DebFile(path).debcontrol()`
of an artifact on disk; `builtPath` is where a fresh build would land. -/
def convert_package (repoFiles : List String) (debian_name : String)
    (debmeta : String → DebInfo) (builtPath : String) :
    List BuildStep × String :=
  match (find_build debian_name repoFiles).getLast? with
  | some found => ([], formatDep (debmeta found))
  | none =>
    ([BuildStep.debianize, BuildStep.patchControl, BuildStep.applyScript,
      BuildStep.sanityCheck, BuildStep.build],
     formatDep (debmeta builtPath))

/-- C5: when an existing artifact matching the package's native-name
pattern is found in the repository, `convert` skips the whole per-package
pipeline — no debianize, control patch, fixup script, dependency sanity
check or native build step runs — and the found artifact's own declared
name and version become the package's result. -/
theorem c5_cache_short_circuit (repoFiles : List String) (debian_name : String)
    (debmeta : String → DebInfo) (builtPath : String) (found : String)
    (h : (find_build debian_name repoFiles).getLast? = some found) :
    convert_package repoFiles debian_name debmeta builtPath =
      ([], formatDep (debmeta found)) ∧
    matchesDebPattern debian_name found = true := by
  constructor
  · simp only [convert_package, h]
  · have hmem : found ∈ find_build debian_name repoFiles := List.mem_of_mem_getLast? h
    exact (List.mem_filter.mp hmem).2

/-- C5 witness: a repository holding py-foo_1.0_all.deb short-circuits
the build of py-foo. -/
theorem c5_witness :
    (find_build "py-foo" ["py-foo_1.0_all.deb"]).getLast? = some "py-foo_1.0_all.deb" ∧
    convert_package ["py-foo_1.0_all.deb"] "py-foo"
        (fun _ => DebInfo.mk "py-foo" "1.0") "unused" =
      ([], formatDep (DebInfo.mk "py-foo" "1.0")) ∧
    matchesDebPattern "py-foo" "py-foo_1.0_all.deb" = true :=
  ⟨by decide,
   (c5_cache_short_circuit ["py-foo_1.0_all.deb"] "py-foo"
     (fun _ => DebInfo.mk "py-foo" "1.0") "unused" "py-foo_1.0_all.deb" (by decide)).1,
   (c5_cache_short_circuit ["py-foo_1.0_all.deb"] "py-foo"
     (fun _ => DebInfo.mk "py-foo" "1.0") "unused" "py-foo_1.0_all.deb" (by decide)).2⟩

/-- The condition the build scan checks for each file in the parent
directory: `filename.endswith('.deb')` and then the fnmatch against
`'%s_*.deb' % package.debian_name`. -/
def debArtifact (debian_name f : String) : Bool :=
  ((".deb").data.isSuffixOf f.data) && matchesDebPattern debian_name f

/-- Embeds the scan loop at the end of `build` (py2deb/converter.py):
the first file of the parent directory listing satisfying `debArtifact`
is moved into the repository (`shutil.move`) and returned as
`DebFile(os.path.join(repository, filename))`; if the loop completes
without a match, the for-else clause raises. -/
def scanArtifacts (debian_name repository : String) (repoFiles : List String) :
    List String → Except String (List String × String)
  | [] => Except.error ("Could not find build of " ++ debian_name)
  | f :: rest =>
    if debArtifact debian_name f then
      Except.ok (repoFiles ++ [f], repository ++ "/" ++ f)
    else scanArtifacts debian_name repository repoFiles rest

/-- Embeds `build(package, repository, verbose)` from py2deb/converter.py
after the dpkg-buildpackage invocation: a non-zero exit of the build
command raises the generic build failure, otherwise the parent directory
is scanned for the produced artifact.  The result carries the repository
listing after the move together with the returned artifact path. -/
def build (debian_name repository : String) (buildExit : Nat)
    (parentFiles repoFiles : List String) : Except String (List String × String) :=
  if buildExit != 0 then Except.error ("Failed to build " ++ debian_name)
  else scanArtifacts debian_name repository repoFiles parentFiles

theorem scanArtifacts_none {debian_name repository : String}
    {repoFiles : List String} :
    ∀ {files : List String}, (∀ f ∈ files, debArtifact debian_name f = false) →
      scanArtifacts debian_name repository repoFiles files =
        Except.error ("Could not find build of " ++ debian_name) := by
  intro files
  induction files with
  | nil => intro _; rfl
  | cons f rest ih =>
    intro h
    have hf : debArtifact debian_name f = false := h f (List.mem_cons_self _ _)
    simp only [scanArtifacts, hf]
    exact ih (fun g hg => h g (List.mem_cons_of_mem _ hg))

theorem scanArtifacts_found {debian_name repository : String}
    {repoFiles : List String} :
    ∀ {files : List String} {f : String}, f ∈ files →
      debArtifact debian_name f = true →
      ∃ g, g ∈ files ∧ debArtifact debian_name g = true ∧
        scanArtifacts debian_name repository repoFiles files =
          Except.ok (repoFiles ++ [g], repository ++ "/" ++ g) := by
  intro files
  induction files with
  | nil => intro f hf; exact absurd hf (List.not_mem_nil f)
  | cons hd rest ih =>
    intro f hf hart
    by_cases hhd : debArtifact debian_name hd = true
    · refine ⟨hd, List.mem_cons_self _ _, hhd, ?_⟩
      simp only [scanArtifacts, hhd, if_true]
    · rcases List.mem_cons.mp hf with rfl | hf
      · exact absurd hart hhd
      · obtain ⟨g, hg, hgart, hscan⟩ := ih hf hart
        refine ⟨g, List.mem_cons_of_mem _ hg, hgart, ?_⟩
        simp only [scanArtifacts, hhd, if_false, Bool.false_eq_true]
        exact hscan

/-- C7: after a successful native build, if no file in the parent
directory matches the native-name artifact pattern, `build` raises the
artifact-not-found error — a message distinct from the generic build
subprocess failure raised on non-zero exit — and if a matching file
exists, no error is raised: a matching file is moved into the repository
and returned. -/
theorem c7_artifact_scan (debian_name repository : String) (buildExit : Nat)
    (parentFiles repoFiles : List String) :
    (buildExit ≠ 0 →
      build debian_name repository buildExit parentFiles repoFiles =
        Except.error ("Failed to build " ++ debian_name)) ∧
    (buildExit = 0 → (∀ f ∈ parentFiles, debArtifact debian_name f = false) →
      build debian_name repository buildExit parentFiles repoFiles =
        Except.error ("Could not find build of " ++ debian_name)) ∧
    ("Could not find build of " ++ debian_name ≠ "Failed to build " ++ debian_name) ∧
    (buildExit = 0 → ∀ f ∈ parentFiles, debArtifact debian_name f = true →
      ∃ g, g ∈ parentFiles ∧ debArtifact debian_name g = true ∧
        build debian_name repository buildExit parentFiles repoFiles =
          Except.ok (repoFiles ++ [g], repository ++ "/" ++ g)) := by
  refine ⟨?_, ?_, ?_, ?_⟩
  · intro h
    simp [build, h]
  · intro h hnone
    subst h
    simp only [build, bne_self_eq_false, if_false, Bool.false_eq_true]
    exact scanArtifacts_none hnone
  · intro h
    have hlen := congrArg String.length h
    rw [String.length_append, String.length_append] at hlen
    have h1 : ("Could not find build of ").length = 24 := rfl
    have h2 : ("Failed to build ").length = 16 := rfl
    omega
  · intro h f hf hart
    subst h
    obtain ⟨g, hg, hgart, hscan⟩ := scanArtifacts_found hf hart
    refine ⟨g, hg, hgart, ?_⟩
    simp only [build, bne_self_eq_false, if_false, Bool.false_eq_true]
    exact hscan

/-- C7 witness: with the parent directory holding setup.py and
py-foo_1.0_all.deb, the successful build collects the artifact into the
repository; with an empty parent directory it raises the
artifact-not-found message, which differs from the subprocess failure
message; a non-zero exit raises the subprocess failure. -/
theorem c7_witness :
    build "py-foo" "repo" 2 ["py-foo_1.0_all.deb"] [] =
      Except.error ("Failed to build " ++ "py-foo") ∧
    build "py-foo" "repo" 0 [] [] =
      Except.error ("Could not find build of " ++ "py-foo") ∧
    ("Could not find build of " ++ "py-foo" ≠ "Failed to build " ++ "py-foo") ∧
    (∃ g, g ∈ ["setup.py", "py-foo_1.0_all.deb"] ∧ debArtifact "py-foo" g = true ∧
      build "py-foo" "repo" 0 ["setup.py", "py-foo_1.0_all.deb"] ["old.deb"] =
        Except.ok (["old.deb"] ++ [g], "repo" ++ "/" ++ g)) :=
  ⟨(c7_artifact_scan "py-foo" "repo" 2 ["py-foo_1.0_all.deb"] []).1 (by decide),
   (c7_artifact_scan "py-foo" "repo" 0 [] []).2.1 rfl (by decide),
   (c7_artifact_scan "py-foo" "repo" 0 [] []).2.2.1,
   (c7_artifact_scan "py-foo" "repo" 0 ["setup.py", "py-foo_1.0_all.deb"]
     ["old.deb"]).2.2.2 rfl "py-foo_1.0_all.deb" (by decide) (by decide)⟩

/-! ## C6 and C8: patching the Debian control file

A control file is embedded as its two parsed `Deb822` paragraphs, each an
ordered list of field-name/value pairs (real control paragraphs have
distinct field names), plus a serializer for the rewritten file content.
`merge_control_fields` comes from the external deb_pkg_tools library and
is modelled from the spec: each override field is written into the
paragraph under its normalized (title-cased) name, overwriting the field
if present (in place) and appending it otherwise, preserving every field
that is not overridden. -/

/-- A parsed Deb822 paragraph: ordered field-name/value pairs. -/
abbrev Paragraph := List (String × String)

/-- Writes one field: overwrites the first binding of the key in place,
or appends the field at the end when the key is absent. -/
def setField : Paragraph → String → String → Paragraph
  | [], k, v => [(k, v)]
  | (k1, v1) :: rest, k, v =>
    if k1 == k then (k, v) :: rest else (k1, v1) :: setField rest k v

/-- Applies a sequence of field writes in order. -/
def applyWrites (ws : List (String × String)) (para : Paragraph) : Paragraph :=
  ws.foldl (fun acc kv => setField acc kv.1 kv.2) para

/-- Embeds Python `str.title()` on a character list: an alphabetic
character is uppercased after a non-alphabetic one and lowercased
otherwise. -/
def titleChars : Bool → List Char → List Char
  | _, [] => []
  | prevAlpha, c :: rest =>
    (if c.isAlpha then (if prevAlpha then c.toLower else c.toUpper) else c) ::
      titleChars c.isAlpha rest

/-- Embeds Python `str.title()`, used to normalize control field names
(`'build-depends'.title() = 'Build-Depends'`). -/
def strTitle (s : String) : String := String.mk (titleChars false s.data)

/-- Embeds Python `str.lower()`. -/
def strToLower (s : String) : String := String.mk (s.data.map Char.toLower)

/-- Modelled from the spec: `merge_control_fields` of the external
deb_pkg_tools library merges override fields into a paragraph under
their normalized field names, preserving any field already present
unless explicitly overridden. -/
def merge_control_fields (para overrides : Paragraph) : Paragraph :=
  applyWrites (overrides.map (fun kv => (strTitle kv.1, kv.2))) para

/-- Modelled from the spec: `py2deb.util.transform_package_name` (whose
module is not among the source files) derives the native package name as
a deterministic pure function of the configured name-transform prefix
and the canonical package name. -/
def transform_package_name (pfx name : String) : String :=
  pfx ++ "-" ++ strToLower name

/-- Embeds `control_patch_cfg(package, config)` from py2deb/converter.py:
the fields of the package's configuration section (if any) with the
reserved script key removed. -/
def control_patch_cfg (cfgSection : Option (List (String × String))) :
    List (String × String) :=
  match cfgSection with
  | none => []
  | some items => items.filter (fun kv => kv.1 != "script")

/-- Embeds `Converter._control_patch(pkg_name)` from
py2deb/util/converter.py: the fields of the package's configuration
section except build-depends, each key title-cased. -/
def Converter_control_patch (cfgSection : Option (List (String × String))) :
    Paragraph :=
  match cfgSection with
  | none => []
  | some fields =>
    (fields.filter (fun kv => strToLower kv.1 != "build-depends")).map
      (fun kv => (strTitle kv.1, kv.2))

/-- Embeds `patch_control(package, replacements, config)` from
py2deb/converter.py on the two parsed paragraphs: sets the binary
paragraph's Package field to the transformed native name, merges the
computed Depends value (`', '.join(package.debian_dependencies(replacements))`,
a pure function of the package and the replacement map, passed here as
`deps_value`), then merges the configured fields. -/
def patch_control (para0 para1 : Paragraph) (custom_pfx pkg_name deps_value : String)
    (cfgSection : Option (List (String × String))) : Paragraph × Paragraph :=
  let p1 := setField para1 "Package" (transform_package_name custom_pfx pkg_name)
  let p2 := merge_control_fields p1 [("Depends", deps_value)]
  let p3 := merge_control_fields p2 (control_patch_cfg cfgSection)
  (para0, p3)

/-- Serializes one paragraph the way `Deb822.dump` writes it. -/
def dumpPara (p : Paragraph) : String :=
  String.join (p.map (fun kv => kv.1 ++ ": " ++ kv.2 ++ "\n"))

/-- Serializes the rewritten control file: first paragraph, a blank
line, second paragraph. -/
def dumpControl (p : Paragraph × Paragraph) : String :=
  dumpPara p.1 ++ "\n" ++ dumpPara p.2

/-- The single write sequence `patch_control` performs on the binary
paragraph. -/
def patchWrites (custom_pfx pkg_name deps_value : String)
    (cfgSection : Option (List (String × String))) : List (String × String) :=
  ("Package", transform_package_name custom_pfx pkg_name) ::
    ("Depends", deps_value) ::
    (control_patch_cfg cfgSection).map (fun kv => (strTitle kv.1, kv.2))

theorem patch_control_eq_applyWrites (para0 para1 : Paragraph)
    (custom_pfx pkg_name deps_value : String)
    (cfgSection : Option (List (String × String))) :
    patch_control para0 para1 custom_pfx pkg_name deps_value cfgSection =
      (para0, applyWrites (patchWrites custom_pfx pkg_name deps_value cfgSection) para1) := by
  simp only [patch_control, merge_control_fields, applyWrites, patchWrites,
    List.map_cons, List.foldl_cons, List.map_map]
  rfl

theorem lookup_setField_self (k v : String) :
    ∀ p : Paragraph, (setField p k v).lookup k = some v := by
  intro p
  induction p with
  | nil => simp [setField, List.lookup]
  | cons hd rest ih =>
    obtain ⟨k1, v1⟩ := hd
    by_cases h : k1 = k
    · subst h
      simp [setField, List.lookup]
    · have hb : (k == k1) = false := beq_eq_false_iff_ne.mpr (Ne.symm h)
      simp only [setField, h, if_false, beq_iff_eq, List.lookup, hb]
      exact ih

theorem lookup_setField_ne {k' k : String} (h : k' ≠ k) (v : String) :
    ∀ p : Paragraph, (setField p k v).lookup k' = p.lookup k' := by
  intro p
  induction p with
  | nil =>
    have hb : (k' == k) = false := beq_eq_false_iff_ne.mpr h
    simp [setField, List.lookup, hb]
  | cons hd rest ih =>
    obtain ⟨k1, v1⟩ := hd
    by_cases h1 : k1 = k
    · subst h1
      have hb : (k' == k1) = false := beq_eq_false_iff_ne.mpr h
      simp [setField, List.lookup, hb]
    · by_cases h2 : k' = k1
      · subst h2
        have hb : (k' == k') = true := beq_self_eq_true k'
        simp [setField, h1, List.lookup, hb]
      · have hb : (k' == k1) = false := beq_eq_false_iff_ne.mpr h2
        simp only [setField, h1, if_false, beq_iff_eq, List.lookup, hb]
        exact ih

theorem keys_setField_mem {k : String} (v : String) :
    ∀ {p : Paragraph}, k ∈ p.map Prod.fst →
      (setField p k v).map Prod.fst = p.map Prod.fst := by
  intro p
  induction p with
  | nil => intro h; exact absurd h (by simp)
  | cons hd rest ih =>
    intro h
    obtain ⟨k1, v1⟩ := hd
    by_cases h1 : k1 = k
    · subst h1
      simp [setField]
    · have hk : k ∈ rest.map Prod.fst := by
        rcases List.mem_cons.mp h with h | h
        · exact absurd h.symm h1
        · exact h
      simp only [setField, h1, if_false, beq_iff_eq, List.map_cons]
      rw [ih hk]

theorem keys_setField_not_mem {k : String} (v : String) :
    ∀ {p : Paragraph}, k ∉ p.map Prod.fst →
      (setField p k v).map Prod.fst = p.map Prod.fst ++ [k] := by
  intro p
  induction p with
  | nil => intro _; rfl
  | cons hd rest ih =>
    intro h
    obtain ⟨k1, v1⟩ := hd
    simp only [List.map_cons, List.mem_cons] at h
    push_neg at h
    simp only [setField, Ne.symm h.1, if_false, beq_iff_eq, List.map_cons]
    rw [ih h.2]
    rfl

theorem mem_keys_setField_self (k v : String) (p : Paragraph) :
    k ∈ (setField p k v).map Prod.fst := by
  by_cases h : k ∈ p.map Prod.fst
  · rw [keys_setField_mem v h]; exact h
  · rw [keys_setField_not_mem v h]; simp

theorem mem_keys_setField_of_mem {a : String} (k v : String) {p : Paragraph}
    (h : a ∈ p.map Prod.fst) : a ∈ (setField p k v).map Prod.fst := by
  by_cases hk : k ∈ p.map Prod.fst
  · rw [keys_setField_mem v hk]; exact h
  · rw [keys_setField_not_mem v hk]; exact List.mem_append_left _ h

theorem nodup_keys_setField (k v : String) {p : Paragraph}
    (h : (p.map Prod.fst).Nodup) : ((setField p k v).map Prod.fst).Nodup := by
  by_cases hk : k ∈ p.map Prod.fst
  · rw [keys_setField_mem v hk]; exact h
  · rw [keys_setField_not_mem v hk]
    simp [List.nodup_append, h, hk]

theorem lookup_append_para (k : String) :
    ∀ l1 l2 : Paragraph, (l1 ++ l2).lookup k =
      match l1.lookup k with
      | some v => some v
      | none => l2.lookup k := by
  intro l1 l2
  induction l1 with
  | nil => rfl
  | cons hd rest ih =>
    obtain ⟨k1, v1⟩ := hd
    by_cases h : k = k1
    · subst h
      have hb : (k == k) = true := beq_self_eq_true k
      simp [List.lookup, hb]
    · have hb : (k == k1) = false := beq_eq_false_iff_ne.mpr h
      simp only [List.cons_append, List.lookup, hb]
      exact ih

/-- The last value a write sequence writes for a key, if any. -/
def lastWrite (ws : List (String × String)) (k : String) : Option String :=
  ws.reverse.lookup k

theorem lookup_applyWrites :
    ∀ (ws : List (String × String)) (p : Paragraph) (k : String),
      (applyWrites ws p).lookup k =
        match lastWrite ws k with
        | some v => some v
        | none => p.lookup k := by
  intro ws
  induction ws with
  | nil => intro p k; rfl
  | cons w ws ih =>
    intro p k
    obtain ⟨k0, v0⟩ := w
    have h1 : applyWrites ((k0, v0) :: ws) p = applyWrites ws (setField p k0 v0) := rfl
    rw [h1, ih]
    have h2 : lastWrite ((k0, v0) :: ws) k =
        match lastWrite ws k with
        | some v => some v
        | none => List.lookup k [(k0, v0)] := by
      simp only [lastWrite, List.reverse_cons]
      exact lookup_append_para k ws.reverse [(k0, v0)]
    rw [h2]
    cases hlw : lastWrite ws k with
    | some v => rfl
    | none =>
      simp only
      by_cases hk : k = k0
      · subst hk
        have hb : (k == k) = true := beq_self_eq_true k
        simp [List.lookup, hb, lookup_setField_self]
      · have hb : (k == k0) = false := beq_eq_false_iff_ne.mpr hk
        simp [List.lookup, hb, lookup_setField_ne hk]

theorem mem_keys_applyWrites_of_mem {a : String} :
    ∀ (ws : List (String × String)) {p : Paragraph},
      a ∈ p.map Prod.fst → a ∈ (applyWrites ws p).map Prod.fst := by
  intro ws
  induction ws with
  | nil => intro p h; exact h
  | cons w ws ih =>
    intro p h
    exact ih (mem_keys_setField_of_mem w.1 w.2 h)

theorem writes_mem_keys_applyWrites :
    ∀ (ws : List (String × String)) (p : Paragraph) (w : String × String),
      w ∈ ws → w.1 ∈ (applyWrites ws p).map Prod.fst := by
  intro ws
  induction ws with
  | nil => intro p w h; exact absurd h (List.not_mem_nil w)
  | cons w0 ws ih =>
    intro p w h
    rcases List.mem_cons.mp h with rfl | h
    · exact mem_keys_applyWrites_of_mem ws (mem_keys_setField_self w.1 w.2 p)
    · exact ih (setField p w0.1 w0.2) w h

theorem keys_applyWrites_of_sub :
    ∀ (ws : List (String × String)) (p : Paragraph),
      (∀ w ∈ ws, w.1 ∈ p.map Prod.fst) →
      (applyWrites ws p).map Prod.fst = p.map Prod.fst := by
  intro ws
  induction ws with
  | nil => intro p _; rfl
  | cons w0 ws ih =>
    intro p h
    have h0 : w0.1 ∈ p.map Prod.fst := h w0 (List.mem_cons_self _ _)
    have hkeys : (setField p w0.1 w0.2).map Prod.fst = p.map Prod.fst :=
      keys_setField_mem w0.2 h0
    have hrest : ∀ w ∈ ws, w.1 ∈ (setField p w0.1 w0.2).map Prod.fst := by
      intro w hw
      rw [hkeys]
      exact h w (List.mem_cons_of_mem _ hw)
    calc (applyWrites (w0 :: ws) p).map Prod.fst
        = (applyWrites ws (setField p w0.1 w0.2)).map Prod.fst := rfl
      _ = (setField p w0.1 w0.2).map Prod.fst := ih _ hrest
      _ = p.map Prod.fst := hkeys

theorem nodup_keys_applyWrites :
    ∀ (ws : List (String × String)) {p : Paragraph},
      (p.map Prod.fst).Nodup → ((applyWrites ws p).map Prod.fst).Nodup := by
  intro ws
  induction ws with
  | nil => intro p h; exact h
  | cons w0 ws ih =>
    intro p h
    exact ih (nodup_keys_setField w0.1 w0.2 h)

theorem lookup_eq_none_of_not_mem_keys {k : String} :
    ∀ {p : Paragraph}, k ∉ p.map Prod.fst → p.lookup k = none := by
  intro p
  induction p with
  | nil => intro _; rfl
  | cons hd rest ih =>
    intro h
    obtain ⟨k1, v1⟩ := hd
    simp only [List.map_cons, List.mem_cons] at h
    push_neg at h
    have hb : (k == k1) = false := beq_eq_false_iff_ne.mpr h.1
    simp only [List.lookup, hb]
    exact ih h.2

theorem paragraph_ext :
    ∀ (p q : Paragraph), p.map Prod.fst = q.map Prod.fst →
      (p.map Prod.fst).Nodup → (∀ k, p.lookup k = q.lookup k) → p = q := by
  intro p
  induction p with
  | nil =>
    intro q hkeys _ _
    have : q.map Prod.fst = [] := hkeys.symm
    exact (List.map_eq_nil_iff.mp this).symm
  | cons hd rest ih =>
    intro q hkeys hnd hlook
    obtain ⟨k1, v1⟩ := hd
    cases q with
    | nil => exact absurd hkeys (by simp)
    | cons hq restq =>
      obtain ⟨k2, v2⟩ := hq
      simp only [List.map_cons, List.cons.injEq] at hkeys
      obtain ⟨hk, htail⟩ := hkeys
      subst hk
      have hv : v1 = v2 := by
        have := hlook k1
        have hb : (k1 == k1) = true := beq_self_eq_true k1
        simp only [List.lookup, hb] at this
        exact Option.some.injEq v1 v2 ▸ this
      subst hv
      simp only [List.map_cons, List.nodup_cons] at hnd
      have hrest : ∀ k, rest.lookup k = restq.lookup k := by
        intro k
        by_cases hkk : k = k1
        · subst hkk
          rw [lookup_eq_none_of_not_mem_keys hnd.1,
            lookup_eq_none_of_not_mem_keys (htail ▸ hnd.1)]
        · have hb : (k == k1) = false := beq_eq_false_iff_ne.mpr hkk
          have := hlook k
          simp only [List.lookup, hb] at this
          exact this
      rw [ih restq htail hnd.2 hrest]

theorem applyWrites_idempotent (ws : List (String × String)) (p : Paragraph)
    (h : (p.map Prod.fst).Nodup) :
    applyWrites ws (applyWrites ws p) = applyWrites ws p := by
  apply paragraph_ext
  · exact keys_applyWrites_of_sub ws (applyWrites ws p)
      (fun w hw => writes_mem_keys_applyWrites ws p w hw)
  · exact nodup_keys_applyWrites ws (nodup_keys_applyWrites ws h)
  · intro k
    rw [lookup_applyWrites, lookup_applyWrites ws p k]
    cases hlw : lastWrite ws k with
    | some v => rfl
    | none => simp only [lookup_applyWrites ws p k, hlw]

/-- C6: applying the control patch a second time to the already-patched
two-paragraph control file, with the same replacements (hence the same
computed Depends value) and the same configured field overrides, leaves
the paragraphs unchanged and hence produces byte-identical file
content: the field merge is idempotent. -/
theorem c6_patch_control_idempotent (para0 para1 : Paragraph)
    (custom_pfx pkg_name deps_value : String)
    (cfgSection : Option (List (String × String)))
    (h : (para1.map Prod.fst).Nodup) :
    patch_control para0
        (patch_control para0 para1 custom_pfx pkg_name deps_value cfgSection).2
        custom_pfx pkg_name deps_value cfgSection =
      patch_control para0 para1 custom_pfx pkg_name deps_value cfgSection ∧
    dumpControl (patch_control para0
        (patch_control para0 para1 custom_pfx pkg_name deps_value cfgSection).2
        custom_pfx pkg_name deps_value cfgSection) =
      dumpControl (patch_control para0 para1 custom_pfx pkg_name deps_value cfgSection) := by
  have hmain : patch_control para0
      (patch_control para0 para1 custom_pfx pkg_name deps_value cfgSection).2
      custom_pfx pkg_name deps_value cfgSection =
      patch_control para0 para1 custom_pfx pkg_name deps_value cfgSection := by
    rw [patch_control_eq_applyWrites para0 para1]
    show patch_control para0
        (applyWrites (patchWrites custom_pfx pkg_name deps_value cfgSection) para1)
        custom_pfx pkg_name deps_value cfgSection = _
    rw [patch_control_eq_applyWrites para0
        (applyWrites (patchWrites custom_pfx pkg_name deps_value cfgSection) para1),
      applyWrites_idempotent _ _ h]
  exact ⟨hmain, by rw [hmain]⟩

/-- C6 witness: a concrete two-paragraph control file produced by stdeb,
patched twice with the same configuration. -/
theorem c6_witness :
    (([("Package", "python-foo"), ("Depends", "python")] : Paragraph).map Prod.fst).Nodup ∧
    patch_control [("Source", "foo")]
        (patch_control [("Source", "foo")]
          [("Package", "python-foo"), ("Depends", "python")]
          "pl" "Foo" "pl-bar" (some [("depends", "libx"), ("script", "make")])).2
        "pl" "Foo" "pl-bar" (some [("depends", "libx"), ("script", "make")]) =
      patch_control [("Source", "foo")]
        [("Package", "python-foo"), ("Depends", "python")]
        "pl" "Foo" "pl-bar" (some [("depends", "libx"), ("script", "make")]) ∧
    dumpControl (patch_control [("Source", "foo")]
        (patch_control [("Source", "foo")]
          [("Package", "python-foo"), ("Depends", "python")]
          "pl" "Foo" "pl-bar" (some [("depends", "libx"), ("script", "make")])).2
        "pl" "Foo" "pl-bar" (some [("depends", "libx"), ("script", "make")])) =
      dumpControl (patch_control [("Source", "foo")]
        [("Package", "python-foo"), ("Depends", "python")]
        "pl" "Foo" "pl-bar" (some [("depends", "libx"), ("script", "make")])) :=
  ⟨by decide,
   (c6_patch_control_idempotent [("Source", "foo")]
     [("Package", "python-foo"), ("Depends", "python")]
     "pl" "Foo" "pl-bar" (some [("depends", "libx"), ("script", "make")]) (by decide)).1,
   (c6_patch_control_idempotent [("Source", "foo")]
     [("Package", "python-foo"), ("Depends", "python")]
     "pl" "Foo" "pl-bar" (some [("depends", "libx"), ("script", "make")]) (by decide)).2⟩

/-- C8 counterexample: the legacy `Converter._control_patch` does not
exclude the script key — it writes it as the metadata field Script — and
instead excludes build-depends.  A configuration section holding both
keys therefore patches the paragraph with Script while dropping
build-depends, contradicting the claim that the reserved script key is
never written as a metadata field. -/
theorem c8_counterexample :
    Converter_control_patch (some [("script", "make"), ("build-depends", "libfoo-dev")]) =
      [("Script", "make")] := by decide

theorem lastWrite_eq_none {k : String} {ws : List (String × String)}
    (h : ∀ w ∈ ws, w.1 ≠ k) : lastWrite ws k = none := by
  apply lookup_eq_none_of_not_mem_keys
  intro hk
  rw [List.mem_map] at hk
  obtain ⟨w, hw, hwk⟩ := hk
  exact h w (List.mem_reverse.mp hw) hwk

/-- C8 (amended): the module-level `control_patch_cfg` merges every
configured pair of the package's section except those with the reserved
script key; the legacy `Converter._control_patch` instead merges every
configured pair except build-depends, title-casing the keys and keeping
script (as Script) when present; and in both converters the merge
preserves every paragraph field whose name is not among the (normalized)
override keys. -/
theorem c8_config_field_merge (items : List (String × String))
    (para ov : Paragraph) (k : String) :
    (∀ kv : String × String,
      kv ∈ control_patch_cfg (some items) ↔ kv ∈ items ∧ kv.1 ≠ "script") ∧
    (∀ K v : String, (K, v) ∈ Converter_control_patch (some items) ↔
      ∃ k0, (k0, v) ∈ items ∧ strToLower k0 ≠ "build-depends" ∧ K = strTitle k0) ∧
    ((∀ w ∈ ov, strTitle w.1 ≠ k) →
      (merge_control_fields para ov).lookup k = para.lookup k) := by
  refine ⟨?_, ?_, ?_⟩
  · intro kv
    simp [control_patch_cfg, List.mem_filter, bne_iff_ne]
  · intro K v
    simp only [Converter_control_patch, List.mem_map, List.mem_filter, bne_iff_ne]
    constructor
    · rintro ⟨⟨k0, v0⟩, ⟨hmem, hbd⟩, heq⟩
      simp only [Prod.mk.injEq] at heq
      exact ⟨k0, heq.2 ▸ hmem, hbd, heq.1.symm⟩
    · rintro ⟨k0, hmem, hbd, rfl⟩
      exact ⟨(k0, v), ⟨hmem, hbd⟩, rfl⟩
  · intro hno
    have hlw : lastWrite (ov.map (fun kv => (strTitle kv.1, kv.2))) k = none := by
      apply lastWrite_eq_none
      intro w hw
      rw [List.mem_map] at hw
      obtain ⟨kv, hkv, rfl⟩ := hw
      exact hno kv hkv
    rw [merge_control_fields, lookup_applyWrites, hlw]

/-- C8 witness: a concrete configuration section, and preservation of
the Package field under a merge that does not override it. -/
theorem c8_witness :
    ((("depends" : String), ("libx" : String)) ∈
        control_patch_cfg (some [("depends", "libx"), ("script", "make")]) ↔
      (("depends" : String), ("libx" : String)) ∈
          [(("depends" : String), ("libx" : String)), ("script", "make")] ∧
        ("depends" : String) ≠ "script") ∧
    ((("Script" : String), ("make" : String)) ∈
        Converter_control_patch (some [("depends", "libx"), ("script", "make")]) ↔
      ∃ k0, (k0, ("make" : String)) ∈
          [(("depends" : String), ("libx" : String)), ("script", "make")] ∧
        strToLower k0 ≠ "build-depends" ∧ ("Script" : String) = strTitle k0) ∧
    (∀ w ∈ ([("Depends", "pl-bar")] : Paragraph), strTitle w.1 ≠ "Package") ∧
    (merge_control_fields [("Package", "python-foo"), ("Depends", "python")]
        [("Depends", "pl-bar")]).lookup "Package" =
      ([("Package", "python-foo"), ("Depends", "python")] : Paragraph).lookup "Package" :=
  ⟨(c8_config_field_merge [("depends", "libx"), ("script", "make")]
      [("Package", "python-foo"), ("Depends", "python")] [("Depends", "pl-bar")]
      "Package").1 ("depends", "libx"),
   (c8_config_field_merge [("depends", "libx"), ("script", "make")]
      [("Package", "python-foo"), ("Depends", "python")] [("Depends", "pl-bar")]
      "Package").2.1 "Script" "make",
   by decide,
   (c8_config_field_merge [("depends", "libx"), ("script", "make")]
      [("Package", "python-foo"), ("Depends", "python")] [("Depends", "pl-bar")]
      "Package").2.2 (by decide)⟩

/-! ## C9: output redirection around the fetch

The Python-level output state is `sys.stdout`, which either points at
the real standard output stream or at the standard error stream.  Every
diagnostic an in-process pip-accel call prints goes to whatever
`sys.stdout` points at; the embedding records, per emission, which
stream received it.  `RedirectOutput` saves `sys.stdout` on entry,
repoints it, and restores the saved stream on exit — the Python with
statement runs `__exit__` both when the body returns and when it
raises. -/

/-- Where `sys.stdout` currently points. -/
inductive Sink where
  | out
  | err
deriving DecidableEq

/-- The Python-level output state: the current `sys.stdout` target and
the record of which stream received each diagnostic emitted so far. -/
structure PState where
  current : Sink
  trace : List Sink
deriving DecidableEq

/-- One diagnostic printed by an external call: it lands on whatever
`sys.stdout` currently points at. -/
def emitDiag (s : PState) : PState :=
  { s with trace := s.trace ++ [s.current] }

/-- The retry loop shared by both fetch implementations, at the level of
its output behavior: each unpack attempt prints diagnostics; on success
the function returns, on `DistributionNotFound` the download step prints
diagnostics too and the loop continues.  The first argument is the
number of iterations left. -/
def fetchLoopDiag (oracle : Nat → Bool) : Nat → Nat → PState → Bool × PState
  | 0, _, s => (false, s)
  | n + 1, i, s =>
    let s1 := emitDiag s
    if oracle i then (true, s1)
    else fetchLoopDiag oracle n (i + 1) (emitDiag s1)

/-- Embeds the output behavior of the module-level `get_source_dists`
(py2deb/converter.py): the whole body runs inside
`with RedirectOutput(sys.stderr)`, whose enter repoints `sys.stdout` at
the standard error stream and whose exit restores the saved stream on
both the return and the raise path. -/
def get_source_dists_io (oracle : Nat → Bool) (max_retries : Nat)
    (s : PState) : Bool × PState :=
  let saved := s.current
  let res := fetchLoopDiag oracle max_retries 0 { s with current := Sink.err }
  (res.1, { res.2 with current := saved })

/-- Embeds the output behavior of the legacy
`Converter.get_source_dists` (py2deb/util/converter.py): no redirection
is installed around the retry loop, which runs from counter 1 while it
is below `max_retries`. -/
def Converter_get_source_dists_io (oracle : Nat → Bool) (max_retries : Nat)
    (s : PState) : Bool × PState :=
  fetchLoopDiag oracle (max_retries - 1) 1 s

/-- C9 counterexample: the legacy `Converter.get_source_dists` performs
no redirection, so when `sys.stdout` points at the real standard output
stream its pip-accel diagnostics land on standard output, contradicting
the claim that all diagnostic output is redirected away from it. -/
theorem c9_counterexample :
    Sink.out ∈ (Converter_get_source_dists_io (fun _ => false) 10
      (PState.mk Sink.out [])).2.trace := by decide

theorem fetchLoopDiag_frame (oracle : Nat → Bool) :
    ∀ (n i : Nat) (s : PState),
      (fetchLoopDiag oracle n i s).2.current = s.current ∧
      ∃ more, (fetchLoopDiag oracle n i s).2.trace = s.trace ++ more ∧
        ∀ x ∈ more, x = s.current := by
  intro n
  induction n with
  | zero => intro i s; exact ⟨rfl, [], by simp [fetchLoopDiag], by simp⟩
  | succ m ih =>
    intro i s
    simp only [fetchLoopDiag]
    by_cases h : oracle i
    · rw [if_pos h]
      refine ⟨rfl, [s.current], by simp [emitDiag], ?_⟩
      intro x hx
      rw [List.mem_singleton] at hx
      exact hx
    · rw [if_neg h]
      obtain ⟨hcur, more, htrace, hall⟩ := ih (i + 1) (emitDiag (emitDiag s))
      refine ⟨by rw [hcur]; rfl, s.current :: s.current :: more, ?_, ?_⟩
      · rw [htrace]
        simp [emitDiag, List.append_assoc]
      · intro x hx
        rcases List.mem_cons.mp hx with rfl | hx
        · rfl
        · rcases List.mem_cons.mp hx with rfl | hx
          · rfl
          · exact hall x hx

/-- C9 (amended): the module-level `get_source_dists` repoints
`sys.stdout` at the standard error stream for the whole fetch, so every
diagnostic printed while it runs lands on standard error and none on
standard output, and the saved `sys.stdout` is restored afterwards
whether the fetch returned (some oracle succeeds) or fell through to the
raise (no oracle succeeds); the legacy `Converter.get_source_dists`
installs no redirection, so its diagnostics land on whatever
`sys.stdout` already pointed at, which it leaves unchanged. -/
theorem c9_redirect_frame (oracle : Nat → Bool) (max_retries : Nat) (s : PState) :
    ((get_source_dists_io oracle max_retries s).2.current = s.current ∧
      ∃ more, (get_source_dists_io oracle max_retries s).2.trace = s.trace ++ more ∧
        ∀ x ∈ more, x = Sink.err) ∧
    ((Converter_get_source_dists_io oracle max_retries s).2.current = s.current ∧
      ∃ more, (Converter_get_source_dists_io oracle max_retries s).2.trace =
          s.trace ++ more ∧
        ∀ x ∈ more, x = s.current) := by
  constructor
  · obtain ⟨hcur, more, htrace, hall⟩ :=
      fetchLoopDiag_frame oracle max_retries 0 { s with current := Sink.err }
    exact ⟨rfl, more, htrace, hall⟩
  · exact fetchLoopDiag_frame oracle (max_retries - 1) 1 s

/-- C9 witness: the module-level fetch with two failing attempts leaves
`sys.stdout` pointing where it started and emits only to standard
error. -/
theorem c9_witness :
    ((get_source_dists_io (fun _ => false) 2 (PState.mk Sink.out [])).2.current =
        (PState.mk Sink.out []).current ∧
      ∃ more, (get_source_dists_io (fun _ => false) 2 (PState.mk Sink.out [])).2.trace =
          (PState.mk Sink.out []).trace ++ more ∧
        ∀ x ∈ more, x = Sink.err) ∧
    ((Converter_get_source_dists_io (fun _ => false) 2 (PState.mk Sink.out [])).2.current =
        (PState.mk Sink.out []).current ∧
      ∃ more, (Converter_get_source_dists_io (fun _ => false) 2
          (PState.mk Sink.out [])).2.trace =
          (PState.mk Sink.out []).trace ++ more ∧
        ∀ x ∈ more, x = (PState.mk Sink.out []).current) :=
  c9_redirect_frame (fun _ => false) 2 (PState.mk Sink.out [])

/-! ## C10: parsing the generated requires.txt
(py2deb/util/converter.py)

A line of the requirements file is embedded as its character list.  The
external `pkg_resources.Requirement.parse` is passed in as `parseLine`,
returning the requirement's key (the normalized project name used for
the replacements lookup) and its version-specifier part; the glob result
is the list of matched files, each given by its lines. -/

/-- One parsed requirement as `Converter.parse_egg_req` records it: the
(possibly replaced) name, the version specifiers, and whether the name
may still be translated later. -/
structure Req where
  name : String
  specs : String
  translatable : Bool
deriving DecidableEq

/-- Embeds the per-line body: parse the requirement and, when its key is
in the replacements configuration, rename it to the configured
replacement and mark it non-translatable, otherwise keep it
translatable. -/
def mkReq (parseLine : List Char → String × String)
    (replacements : List (String × String)) (line : List Char) : Req :=
  let ks := parseLine line
  match replacements.lookup ks.1 with
  | some newname => { name := newname, specs := ks.2, translatable := false }
  | none => { name := ks.1, specs := ks.2, translatable := true }

/-- Embeds `not line.strip()`: the line is whitespace only. -/
def isBlankLine (line : List Char) : Bool := line.all Char.isWhitespace

/-- Embeds Python `line.startswith(chr(91))`: the first character is the
opening square bracket. -/
def startsBracket (line : List Char) : Bool :=
  match line with
  | c :: _ => c == '['
  | [] => false

/-- Embeds the line loop of `parse_egg_req`: blank lines are skipped,
the loop stops at the first line opening a section bracket, every other
line contributes one requirement. -/
def collectReqs (parseLine : List Char → String × String)
    (replacements : List (String × String)) : List (List Char) → List Req
  | [] => []
  | line :: rest =>
    if isBlankLine line then collectReqs parseLine replacements rest
    else if startsBracket line then []
    else mkReq parseLine replacements line :: collectReqs parseLine replacements rest

/-- Embeds `Converter.parse_egg_req`: only when the glob over
pip-egg-info yields exactly one requires.txt is that file read and its
requirements appended to the package's requirement list; with zero or
several matches the list is left unchanged. -/
def parse_egg_req (parseLine : List Char → String × String)
    (replacements : List (String × String)) (globMatches : List (List (List Char)))
    (pkgReqs : List Req) : List Req :=
  match globMatches with
  | [lines] => pkgReqs ++ collectReqs parseLine replacements lines
  | _ => pkgReqs

theorem blank_not_bracket {line : List Char} (h : isBlankLine line = true) :
    startsBracket line = false := by
  cases line with
  | nil => rfl
  | cons c rest =>
    simp only [isBlankLine, List.all_cons, Bool.and_eq_true] at h
    simp only [startsBracket]
    apply beq_eq_false_iff_ne.mpr
    intro hc
    subst hc
    exact absurd h.1 (by decide)

theorem collectReqs_eq (parseLine : List Char → String × String)
    (replacements : List (String × String)) :
    ∀ lines : List (List Char), collectReqs parseLine replacements lines =
      ((lines.takeWhile (fun l => !(startsBracket l))).filter
        (fun l => !(isBlankLine l))).map (mkReq parseLine replacements) := by
  intro lines
  induction lines with
  | nil => rfl
  | cons line rest ih =>
    by_cases hb : isBlankLine line = true
    · have hnb : startsBracket line = false := blank_not_bracket hb
      simp [collectReqs, hb, hnb, List.takeWhile_cons, List.filter_cons, ih]
    · by_cases hs : startsBracket line = true
      · simp [collectReqs, hb, hs, List.takeWhile_cons]
      · simp only [Bool.not_eq_true] at hb hs
        simp [collectReqs, hb, hs, List.takeWhile_cons, List.filter_cons, ih]

/-- C10: `parse_egg_req` appends requirements only when the glob matches
exactly one requires.txt (zero or several matches leave the list
unchanged); with one match, exactly the non-blank lines strictly before
the first bracket-opening line contribute, each requirement renamed to
its configured replacement and marked non-translatable when its key is
in the replacements configuration, and kept translatable otherwise. -/
theorem c10_parse_egg_req (parseLine : List Char → String × String)
    (replacements : List (String × String)) (pkgReqs : List Req) :
    (parse_egg_req parseLine replacements [] pkgReqs = pkgReqs) ∧
    (∀ m1 m2 rest, parse_egg_req parseLine replacements (m1 :: m2 :: rest) pkgReqs =
      pkgReqs) ∧
    (∀ lines, parse_egg_req parseLine replacements [lines] pkgReqs =
      pkgReqs ++ ((lines.takeWhile (fun l => !(startsBracket l))).filter
        (fun l => !(isBlankLine l))).map (mkReq parseLine replacements)) ∧
    (∀ line k, replacements.lookup (parseLine line).1 = some k →
      mkReq parseLine replacements line = Req.mk k (parseLine line).2 false) ∧
    (∀ line, replacements.lookup (parseLine line).1 = none →
      mkReq parseLine replacements line =
        Req.mk (parseLine line).1 (parseLine line).2 true) := by
  refine ⟨rfl, fun m1 m2 rest => rfl, ?_, ?_, ?_⟩
  · intro lines
    rw [parse_egg_req, collectReqs_eq]
  · intro line k hk
    simp [mkReq, hk]
  · intro line hk
    simp [mkReq, hk]

/-- C10 witness: a requires.txt whose lines are beta, a blank line, an
extras section opening bracket and a trailing requirement; beta is in
the replacements configuration and is renamed and marked
non-translatable, while alpha stays translatable. -/
theorem c10_witness :
    (parse_egg_req (fun l => (String.mk (l.takeWhile Char.isAlpha), ""))
        [("beta", "libbeta")] [] [] = []) ∧
    (parse_egg_req (fun l => (String.mk (l.takeWhile Char.isAlpha), ""))
        [("beta", "libbeta")] [[], []] [] = []) ∧
    (parse_egg_req (fun l => (String.mk (l.takeWhile Char.isAlpha), ""))
        [("beta", "libbeta")]
        [[("beta\n").data, (" \n").data, ("[extras]\n").data, ("alpha\n").data]] [] =
      [] ++ (([("beta\n").data, (" \n").data, ("[extras]\n").data,
          ("alpha\n").data].takeWhile (fun l => !(startsBracket l))).filter
        (fun l => !(isBlankLine l))).map
          (mkReq (fun l => (String.mk (l.takeWhile Char.isAlpha), ""))
            [("beta", "libbeta")])) ∧
    (mkReq (fun l => (String.mk (l.takeWhile Char.isAlpha), "")) [("beta", "libbeta")]
        ("beta\n").data = Req.mk "libbeta" "" false) ∧
    (mkReq (fun l => (String.mk (l.takeWhile Char.isAlpha), "")) [("beta", "libbeta")]
        ("alpha\n").data = Req.mk "alpha" "" true) :=
  ⟨(c10_parse_egg_req (fun l => (String.mk (l.takeWhile Char.isAlpha), ""))
      [("beta", "libbeta")] []).1,
   (c10_parse_egg_req (fun l => (String.mk (l.takeWhile Char.isAlpha), ""))
      [("beta", "libbeta")] []).2.1 [] [] [],
   (c10_parse_egg_req (fun l => (String.mk (l.takeWhile Char.isAlpha), ""))
      [("beta", "libbeta")] []).2.2.1
      [("beta\n").data, (" \n").data, ("[extras]\n").data, ("alpha\n").data],
   (c10_parse_egg_req (fun l => (String.mk (l.takeWhile Char.isAlpha), ""))
      [("beta", "libbeta")] []).2.2.2.1 ("beta\n").data "libbeta" (by decide),
   (c10_parse_egg_req (fun l => (String.mk (l.takeWhile Char.isAlpha), ""))
      [("beta", "libbeta")] []).2.2.2.2 ("alpha\n").data (by decide)⟩
